import Mathlib

/-
Verification of the conversation/friendship/messaging core.

The remote store (Postgres tables and SECURITY DEFINER functions from the
migration files) is embedded as a Remote structure with list-valued tables;
UUIDs are modelled as naturals, gen_random_uuid freshness as a nextId
counter, and timestamps as naturals. The client provider (ChatContext) is
embedded as pure functions over Remote and a ProviderState, with network
effects reified as explicit call lists and network failure as a Bool
parameter. All definitions are computable so concrete runs can be checked
by decide or rfl.
-/

namespace ChatCore

/-- Conversation kind, from the type column check constraint of the
conversations table. -/
inductive ConvType
  | direct
  | group
  deriving DecidableEq

/-- Row of the conversations table (columns relevant to the core). -/
structure Conversation where
  id : Nat
  ctype : ConvType
  created_by : Nat
  updated_at : Nat
  deriving DecidableEq

/-- Row of the conversation_participants table. -/
structure Participant where
  conversation_id : Nat
  user_id : Nat
  deriving DecidableEq

/-- Row of the messages table (columns the client reads and writes). -/
structure MessageRow where
  id : Nat
  conversation_id : Nat
  sender_id : Nat
  content : String
  created_at : Nat
  deriving DecidableEq

/-- Status column of friend_requests, a closed check constraint. -/
inductive ReqStatus
  | pending
  | accepted
  | rejected
  deriving DecidableEq

/-- Row of the friend_requests table. -/
structure FriendRequestRow where
  id : Nat
  sender_id : Nat
  receiver_id : Nat
  status : ReqStatus
  deriving DecidableEq

/-- Row of the friendships table; the check constraint demands
user1_id < user2_id. -/
structure FriendshipRow where
  user1_id : Nat
  user2_id : Nat
  deriving DecidableEq

/-- Row of the typing_indicators table. -/
structure TypingRow where
  conversation_id : Nat
  user_id : Nat
  is_typing : Bool
  deriving DecidableEq

/-- The remote authoritative store: one field per table the core touches.
nextConvId and nextReqId model the freshness of generated row ids. -/
structure Remote where
  conversations : List Conversation
  convParts : List Participant
  nextConvId : Nat
  messages : List MessageRow
  friendRequests : List FriendRequestRow
  nextReqId : Nat
  friendships : List FriendshipRow
  inviteCodes : List (Nat × String)
  typing : List TypingRow
  deriving DecidableEq

/-- The WHERE clause of the lookup inside get_or_create_conversation: the
conversation is direct, has the caller as a participant, has the other
user as a participant, and has exactly two participant rows. -/
def isDirectPairConv (r : Remote) (uid other : Nat) (c : Conversation) : Bool :=
  c.ctype == ConvType.direct
    && r.convParts.any (fun p => p.conversation_id == c.id && p.user_id == uid)
    && r.convParts.any (fun p => p.conversation_id == c.id && p.user_id == other)
    && r.convParts.countP (fun p => p.conversation_id == c.id) == 2

/-- The SELECT phase of get_or_create_conversation. -/
def findDirectConv (uid other : Nat) (r : Remote) : Option Nat :=
  (r.conversations.find? (isDirectPairConv r uid other)).map (fun c => c.id)

/-- The creation phase of get_or_create_conversation: insert a fresh direct
conversation and both participant rows. -/
def createDirectConv (uid other : Nat) (r : Remote) : Nat × Remote :=
  let cid := r.nextConvId
  (cid, { r with
    conversations := r.conversations ++ [⟨cid, ConvType.direct, uid, 0⟩],
    convParts := r.convParts ++ [⟨cid, uid⟩, ⟨cid, other⟩],
    nextConvId := cid + 1 })

/-- The SECURITY DEFINER function get_or_create_conversation: query for an
existing direct conversation with exactly the two participants; if absent,
create one. The source has no exception handler and no re-query path. -/
def get_or_create_conversation (uid other : Nat) (r : Remote) : Nat × Remote :=
  match findDirectConv uid other r with
  | some cid => (cid, r)
  | none => createDirectConv uid other r

/-- Number of direct conversations whose participant rows are exactly the
two given users. -/
def countDirectPair (uid other : Nat) (r : Remote) : Nat :=
  r.conversations.countP (isDirectPairConv r uid other)

/-- Well-formedness of generated ids: every stored conversation id and every
participant row reference is below the freshness counter. -/
def Remote.ConvWF (r : Remote) : Prop :=
  (∀ c ∈ r.conversations, c.id < r.nextConvId) ∧
    (∀ p ∈ r.convParts, p.conversation_id < r.nextConvId)

/-- The SECURITY DEFINER function accept_friend_request: locate the request
by id, restricted to receiver_id = caller and status pending; absent a
match, raise. Otherwise set the request accepted and insert the
canonically ordered friendship, ON CONFLICT DO NOTHING. -/
def accept_friend_request (uid request_id : Nat) (r : Remote) : Except String Remote :=
  match r.friendRequests.find?
      (fun q => q.id == request_id && q.receiver_id == uid && q.status == ReqStatus.pending) with
  | none => Except.error "Friend request not found or not authorized"
  | some q =>
    let requests2 := r.friendRequests.map
      (fun w => if w.id == request_id then { w with status := ReqStatus.accepted } else w)
    let u1 := min q.sender_id q.receiver_id
    let u2 := max q.sender_id q.receiver_id
    let friendships2 :=
      if r.friendships.any (fun f => f.user1_id == u1 && f.user2_id == u2) then r.friendships
      else r.friendships ++ [⟨u1, u2⟩]
    Except.ok { r with friendRequests := requests2, friendships := friendships2 }

/-- Outcomes of a direct table insert: rejected by a row security policy, or
by a unique constraint, or accepted. -/
inductive DbErr
  | rowSecurity
  | uniqueViolation
  deriving DecidableEq

/-- The plain INSERT into friend_requests issued by sendFriendRequest. The
row security WITH CHECK demands sender = caller and sender distinct from
receiver; the only table constraint is UNIQUE on the ordered pair
(sender_id, receiver_id), independent of status and of the reverse
direction. -/
def insertFriendRequestRow (uid target : Nat) (r : Remote) : Except DbErr Remote :=
  if uid == target then Except.error DbErr.rowSecurity
  else if r.friendRequests.any (fun q => q.sender_id == uid && q.receiver_id == target) then
    Except.error DbErr.uniqueViolation
  else Except.ok { r with
    friendRequests := r.friendRequests ++ [⟨r.nextReqId, uid, target, ReqStatus.pending⟩],
    nextReqId := r.nextReqId + 1 }

/-- Insert one element into a list sorted by the given comparison; helper for
the model of an ORDER BY query. -/
def insertSorted {α : Type} (le : α → α → Bool) (a : α) : List α → List α
  | [] => [a]
  | b :: t => if le a b then a :: b :: t else b :: insertSorted le a t

/-- Sort a list by the given comparison; models the ORDER BY of a query. -/
def sortRows {α : Type} (le : α → α → Bool) : List α → List α
  | [] => []
  | a :: t => insertSorted le a (sortRows le t)

/-- The fetchMessages query: messages of one conversation ordered by
created_at ascending. The query has no secondary sort key. -/
def queryMessages (msgs : List MessageRow) (cid : Nat) : List MessageRow :=
  sortRows (fun a b => decide (a.created_at ≤ b.created_at))
    (msgs.filter (fun m => m.conversation_id == cid))

/-- The fetchConversations query: conversations visible to the caller under
row security (the caller is a participant), ordered by updated_at
descending. -/
def queryConversations (uid : Nat) (r : Remote) : List Conversation :=
  sortRows (fun a b => decide (b.updated_at ≤ a.updated_at))
    (r.conversations.filter
      (fun c => r.convParts.any (fun p => p.conversation_id == c.id && p.user_id == uid)))

/-- The get_user_friends remote procedure: the other endpoint of every
friendship row containing the caller. -/
def get_user_friends (uid : Nat) (r : Remote) : List Nat :=
  r.friendships.filterMap (fun f =>
    if f.user1_id == uid then some f.user2_id
    else if f.user2_id == uid then some f.user1_id
    else none)

/-- Local state of the ChatProvider: one field per useState cell that backs
the exposed stores. -/
structure ProviderState where
  conversations : List Conversation
  currentConversation : Option Nat
  messages : List MessageRow
  friends : List Nat
  friendRequests : List FriendRequestRow
  pendingRequests : List FriendRequestRow
  typingUsers : List Nat
  isLoading : Bool
  deriving DecidableEq

/-- The provider state created by the initial useState calls. -/
def initProviderState : ProviderState :=
  { conversations := [], currentConversation := none, messages := [], friends := [],
    friendRequests := [], pendingRequests := [], typingUsers := [], isLoading := false }

/-- Network requests a provider operation can issue. -/
inductive NetCall
  | insertMessageCall
  | updateConversationCall
  | rpcGetOrCreateConversation
  | insertFriendRequestCall
  | rpcAcceptFriendRequest
  | updateFriendRequestCall
  | updateProfileCall
  | upsertTypingCall
  | fetchCall
  deriving DecidableEq

/-- User-visible outcome of sendMessage: silent early return, success, or the
destructive toast asking the user to try again. -/
inductive SendResult
  | skipped
  | sent
  | sendFailed
  deriving DecidableEq

/-- Executable model of the string trim the client applies to message
content: strip leading and trailing whitespace. -/
def trimString (s : String) : String :=
  ⟨((s.data.dropWhile Char.isWhitespace).reverse.dropWhile Char.isWhitespace).reverse⟩

/-- The fetchFriendRequests refresh: fetch all requests involving the caller,
then split the pending ones by direction into the received and sent slices. -/
def refreshFriendRequests (uid : Nat) (r : Remote) (s : ProviderState) : ProviderState :=
  let mine := r.friendRequests.filter (fun q => q.sender_id == uid || q.receiver_id == uid)
  { s with
    friendRequests := mine.filter (fun q => q.receiver_id == uid && q.status == ReqStatus.pending),
    pendingRequests := mine.filter (fun q => q.sender_id == uid && q.status == ReqStatus.pending) }

/-- sendMessage from the provider: early return if no user or the trimmed
content is empty; otherwise insert the trimmed message, and on success bump
the conversation updated_at. netOk models whether the insert reaches the
backend; now and newId model the server clock and generated row id. The
local store is never written in any branch. -/
def sendMessageOp (user : Option Nat) (cid : Nat) (content : String) (netOk : Bool)
    (now newId : Nat) (r : Remote) (s : ProviderState) :
    Remote × ProviderState × List NetCall × SendResult :=
  match user with
  | none => (r, s, [], SendResult.skipped)
  | some uid =>
    if trimString content = "" then (r, s, [], SendResult.skipped)
    else if netOk then
      let r1 := { r with
        messages := r.messages ++ [MessageRow.mk newId cid uid (trimString content) now] }
      let r2 := { r1 with conversations := (r1.conversations.map
        (fun c => if c.id == cid then { c with updated_at := now } else c)) }
      (r2, s, [NetCall.insertMessageCall, NetCall.updateConversationCall], SendResult.sent)
    else (r, s, [NetCall.insertMessageCall], SendResult.sendFailed)

/-- startConversation from the provider: early return null if no user;
otherwise call the get_or_create_conversation procedure, refresh the
conversation list and make the returned id current. rpcOk models whether
the call reaches the backend. -/
def startConversationOp (user : Option Nat) (friendId : Nat) (rpcOk : Bool)
    (r : Remote) (s : ProviderState) : Remote × ProviderState × List NetCall × Option Nat :=
  match user with
  | none => (r, s, [], none)
  | some uid =>
    if rpcOk then
      let res := get_or_create_conversation uid friendId r
      let s1 := { s with conversations := queryConversations uid res.2 }
      let s2 := { s1 with currentConversation := some res.1, isLoading := false }
      (res.2, s2, [NetCall.rpcGetOrCreateConversation, NetCall.fetchCall], some res.1)
    else (r, { s with isLoading := false }, [NetCall.rpcGetOrCreateConversation], none)

/-- sendFriendRequest from the provider: early return if no user; otherwise a
plain insert into friend_requests, and on success a refresh of the request
slices. -/
def sendFriendRequestOp (user : Option Nat) (targetId : Nat) (r : Remote)
    (s : ProviderState) : Remote × ProviderState × List NetCall :=
  match user with
  | none => (r, s, [])
  | some uid =>
    match insertFriendRequestRow uid targetId r with
    | Except.error _ => (r, s, [NetCall.insertFriendRequestCall])
    | Except.ok r1 =>
      (r1, refreshFriendRequests uid r1 s, [NetCall.insertFriendRequestCall, NetCall.fetchCall])

/-- acceptFriendRequest from the provider: early return if no user; otherwise
call the accept_friend_request procedure and on success refresh the friend
list and the request slices. -/
def acceptFriendRequestOp (user : Option Nat) (requestId : Nat) (r : Remote)
    (s : ProviderState) : Remote × ProviderState × List NetCall :=
  match user with
  | none => (r, s, [])
  | some uid =>
    match accept_friend_request uid requestId r with
    | Except.error _ => (r, s, [NetCall.rpcAcceptFriendRequest])
    | Except.ok r1 =>
      let s1 := { s with friends := get_user_friends uid r1 }
      (r1, refreshFriendRequests uid r1 s1,
        [NetCall.rpcAcceptFriendRequest, NetCall.fetchCall, NetCall.fetchCall])

/-- rejectFriendRequest from the provider: early return if no user; otherwise
update the request to rejected (row security limits the update to rows the
caller receives) and refresh the request slices. -/
def rejectFriendRequestOp (user : Option Nat) (requestId : Nat) (netOk : Bool)
    (r : Remote) (s : ProviderState) : Remote × ProviderState × List NetCall :=
  match user with
  | none => (r, s, [])
  | some uid =>
    if netOk then
      let r1 := { r with friendRequests := (r.friendRequests.map
        (fun q => if q.id == requestId && q.receiver_id == uid then
          { q with status := ReqStatus.rejected } else q)) }
      (r1, refreshFriendRequests uid r1 s, [NetCall.updateFriendRequestCall, NetCall.fetchCall])
    else (r, s, [NetCall.updateFriendRequestCall])

/-- generateInviteCode from the provider: early return null if no user;
otherwise store the freshly generated code on the caller profile. code
models the random generation, netOk the update reaching the backend. -/
def generateInviteCodeOp (user : Option Nat) (code : String) (netOk : Bool)
    (r : Remote) (s : ProviderState) : Remote × ProviderState × List NetCall × Option String :=
  match user with
  | none => (r, s, [], none)
  | some uid =>
    if netOk then
      let r1 := { r with inviteCodes := (r.inviteCodes.map
        (fun pc => if pc.1 == uid then (pc.1, code) else pc)) }
      (r1, s, [NetCall.updateProfileCall], some code)
    else (r, s, [NetCall.updateProfileCall], none)

/-- The upsert against typing_indicators: latest write wins on the unique
(conversation, user) key. -/
def upsertTyping (cid uid : Nat) (flag : Bool) (r : Remote) : Remote :=
  if r.typing.any (fun t => t.conversation_id == cid && t.user_id == uid) then
    { r with typing := r.typing.map (fun t =>
      if t.conversation_id == cid && t.user_id == uid then { t with is_typing := flag } else t) }
  else { r with typing := r.typing ++ [⟨cid, uid, flag⟩] }

/-- startTyping from the provider: early return if no user; otherwise upsert
an is_typing true signal. -/
def startTypingOp (user : Option Nat) (cid : Nat) (r : Remote) (s : ProviderState) :
    Remote × ProviderState × List NetCall :=
  match user with
  | none => (r, s, [])
  | some uid => (upsertTyping cid uid true r, s, [NetCall.upsertTypingCall])

/-- stopTyping from the provider: early return if no user; otherwise upsert
an is_typing false signal. -/
def stopTypingOp (user : Option Nat) (cid : Nat) (r : Remote) (s : ProviderState) :
    Remote × ProviderState × List NetCall :=
  match user with
  | none => (r, s, [])
  | some uid => (upsertTyping cid uid false r, s, [NetCall.upsertTypingCall])

/-- The realtime handler for an INSERT on messages. The subscription is
installed by the effect that depends only on the user, so the handler
closure holds the currentConversation value of the render that installed
it — the captured parameter — not the live value in the provider state;
at login the captured value is none and it is never re-captured on a
conversation switch. The handler re-fetches the conversation log when the
event conversation equals that captured value, and re-fetches the
conversation list in every case. -/
def onMessageInsert (uid : Nat) (captured : Option Nat) (r : Remote) (evConvId : Nat)
    (s : ProviderState) : ProviderState :=
  let s1 := if some evConvId == captured then
      { s with messages := queryMessages r.messages evConvId }
    else s
  { s1 with conversations := queryConversations uid r }

/-- State of the message store machinery: the current conversation, the
message list, and the conversation ids of dispatched but unresolved
fetches. -/
structure MsgView where
  active : Option Nat
  messages : List MessageRow
  inflight : List Nat
  deriving DecidableEq

/-- The effect on currentConversation: switching to a conversation dispatches
a fetch of its log; switching to none clears the message list and
dispatches nothing. -/
def setActiveStep (c : Option Nat) (s : MsgView) : MsgView :=
  match c with
  | some cid => { s with active := some cid, inflight := s.inflight ++ [cid] }
  | none => { active := none, messages := [], inflight := s.inflight }

/-- Resolution of a dispatched fetchMessages call: the result is written to
the message store unconditionally; the source compares nothing against the
currently active conversation before the write. -/
def resolveFetchStep (cid : Nat) (res : List MessageRow) (s : MsgView) : MsgView :=
  { s with messages := res, inflight := s.inflight.erase cid }

/-- State of the typing debounce in the chat input: the isTyping flag, the
timeout id held by the ref, the live scheduled timeouts, and the log of
upserted typing flags (true for startTyping, false for stopTyping). -/
structure TypingMachine where
  isTyping : Bool
  timerRef : Option Nat
  timers : List Nat
  sent : List Bool
  deriving DecidableEq

/-- handleInputChange from the chat input: on a keystroke, send startTyping
only when not already typing; clear the ref-held timeout; schedule a fresh
1000 ms timeout and store it in the ref. -/
def handleInputChange (now : Nat) (m : TypingMachine) : TypingMachine :=
  let m1 := if m.isTyping then m else { m with isTyping := true, sent := m.sent ++ [true] }
  let m2 := match m1.timerRef with
    | some d => { m1 with timers := m1.timers.erase d }
    | none => m1
  { m2 with timers := m2.timers ++ [now + 1000], timerRef := some (now + 1000) }

/-- Expiry of a scheduled timeout: its callback resets the isTyping flag and
sends stopTyping. -/
def fireTimer (d : Nat) (m : TypingMachine) : TypingMachine :=
  { m with isTyping := false, timers := m.timers.erase d, sent := m.sent ++ [false] }

/-- Timer invariant of the debounce: at most one timeout is live, and a live
timeout is the one held by the ref. -/
def TimerWF (m : TypingMachine) : Prop :=
  m.timers = [] ∨ ∃ d, m.timers = [d] ∧ m.timerRef = some d

/-- Every state write the ChatProvider can perform on its store cells: the
five fetch completions, the current-conversation setter, the clearing of
the message list, and the loading flag. No action writes typingUsers, as
setTypingUsers is never called in the source. -/
inductive ProviderAction
  | conversationsFetched (data : List Conversation)
  | messagesFetched (data : List MessageRow)
  | friendsFetched (data : List Nat)
  | friendRequestsFetched (rcv sentPending : List FriendRequestRow)
  | setCurrent (c : Option Nat)
  | messagesCleared
  | setLoadingFlag (b : Bool)
  deriving DecidableEq

/-- Apply one provider state write. -/
def providerStep (a : ProviderAction) (s : ProviderState) : ProviderState :=
  match a with
  | ProviderAction.conversationsFetched d => { s with conversations := d }
  | ProviderAction.messagesFetched d => { s with messages := d }
  | ProviderAction.friendsFetched d => { s with friends := d }
  | ProviderAction.friendRequestsFetched rcv sentPending =>
    { s with friendRequests := rcv, pendingRequests := sentPending }
  | ProviderAction.setCurrent c => { s with currentConversation := c }
  | ProviderAction.messagesCleared => { s with messages := [] }
  | ProviderAction.setLoadingFlag b => { s with isLoading := b }

/-- Non-decreasing creation timestamps along a list of messages. -/
def sortedByCreatedAt (l : List MessageRow) : Prop :=
  List.Chain' (fun a b => a.created_at ≤ b.created_at) l

/-- What the fetchMessages query can return: some ordering of exactly the
conversation rows that is non-decreasing by created_at. Ties carry no
further guarantee because the query has no secondary sort key. -/
def messagesQueryResult (dbMsgs : List MessageRow) (cid : Nat) (res : List MessageRow) : Prop :=
  res.Perm (dbMsgs.filter (fun m => m.conversation_id == cid)) ∧ sortedByCreatedAt res

lemma providerStep_typingUsers (a : ProviderAction) (s : ProviderState) :
    (providerStep a s).typingUsers = s.typingUsers := by
  cases a <;> rfl

lemma foldl_providerStep_typingUsers (acts : List ProviderAction) (s : ProviderState) :
    (acts.foldl (fun t a => providerStep a t) s).typingUsers = s.typingUsers := by
  induction acts generalizing s with
  | nil => rfl
  | cons a t ih => rw [List.foldl_cons, ih, providerStep_typingUsers]

/-- Claim C10: starting from the initial provider state, no sequence of
provider state writes ever changes typingUsers, so the exposed list is the
constant empty list and no remote user is ever reported as typing. The
realtime channel has no handler for the typing_indicators table and
setTypingUsers is never invoked, which the action type reflects. -/
theorem C10_typingUsers_always_empty (acts : List ProviderAction) :
    (acts.foldl (fun t a => providerStep a t) initProviderState).typingUsers = [] := by
  rw [foldl_providerStep_typingUsers]
  rfl

/-- Claim C9: with no authenticated user, every mutating chat operation
returns immediately: the remote store and the provider state are unchanged
and no network call is issued, for all eight operations. -/
theorem C9_no_user_no_effect (cid target requestId friendId newId now : Nat)
    (content code : String) (netOk rpcOk : Bool) (r : Remote) (s : ProviderState) :
    sendMessageOp none cid content netOk now newId r s = (r, s, [], SendResult.skipped) ∧
    startConversationOp none friendId rpcOk r s = (r, s, [], none) ∧
    sendFriendRequestOp none target r s = (r, s, []) ∧
    acceptFriendRequestOp none requestId r s = (r, s, []) ∧
    rejectFriendRequestOp none requestId netOk r s = (r, s, []) ∧
    generateInviteCodeOp none code netOk r s = (r, s, [], none) ∧
    startTypingOp none cid r s = (r, s, []) ∧
    stopTypingOp none cid r s = (r, s, []) :=
  ⟨rfl, rfl, rfl, rfl, rfl, rfl, rfl, rfl⟩

/-- Remote store with one direct conversation (id 1, participants 5 and 7)
holding one message, used in the stale-closure run. -/
def c6remote : Remote :=
  { conversations := [⟨1, ConvType.direct, 5, 9⟩],
    convParts := [⟨1, 5⟩, ⟨1, 7⟩],
    nextConvId := 2,
    messages := [⟨20, 1, 7, "hello", 4⟩],
    friendRequests := [], nextReqId := 0, friendships := [], inviteCodes := [], typing := [] }

/-- Provider state of user 5 with conversation 1 active and an empty local
message log. -/
def c6state : ProviderState := { initProviderState with currentConversation := some 1 }

/-- Claim C6, evaluated at the failing input: the subscription installed at
login captured currentConversation = none; later conversation 1 is active
and a message-created event for conversation 1 arrives. The handler
compares the event against the captured none, so the message store stays
empty although the event is for the live active conversation and a fetch
would return its message; the conversation list is still refreshed, and a
second delivery of the same event changes nothing. -/
theorem C6_stale_closure_no_refresh :
    c6state.currentConversation = some 1 ∧
    (onMessageInsert 5 none c6remote 1 c6state).messages = [] ∧
    queryMessages c6remote.messages 1 = [⟨20, 1, 7, "hello", 4⟩] ∧
    (onMessageInsert 5 none c6remote 1 c6state).conversations
      = queryConversations 5 c6remote ∧
    onMessageInsert 5 none c6remote 1 (onMessageInsert 5 none c6remote 1 c6state)
      = onMessageInsert 5 none c6remote 1 c6state := by
  refine ⟨rfl, rfl, by decide, rfl, by decide⟩

/-- Initial message view before any conversation is selected. -/
def emptyMsgView : MsgView := { active := none, messages := [], inflight := [] }

/-- A message of conversation 1 used in the stale fetch run. -/
def convOneRow : MessageRow := ⟨10, 1, 5, "from conversation one", 3⟩

/-- A message of conversation 2 used in the stale fetch run. -/
def convTwoRow : MessageRow := ⟨11, 2, 5, "from conversation two", 4⟩

/-- Claim C7 is false on the code: after setActive(1) followed by
setActive(2), the fetch for conversation 1 resolves last and its result
populates the message store although conversation 2 is active; the source
compares nothing against the active id at resolution time. -/
theorem C7_counterexample :
    (resolveFetchStep 1 [convOneRow] (resolveFetchStep 2 [convTwoRow]
      (setActiveStep (some 2) (setActiveStep (some 1) emptyMsgView)))).active = some 2 ∧
    (resolveFetchStep 1 [convOneRow] (resolveFetchStep 2 [convTwoRow]
      (setActiveStep (some 2) (setActiveStep (some 1) emptyMsgView)))).messages = [convOneRow] ∧
    [convOneRow] ≠ [convTwoRow] := by
  refine ⟨rfl, rfl, ?_⟩
  decide

/-- Claim C7 amended: no resolution-time guard exists; a resolved fetch
overwrites the message store even when its conversation is no longer
active, so the store reflects whichever fetch resolves last. Switching to
none clears the store without dispatching a fetch, and switching to a
conversation keeps the old messages until its fetch resolves. -/
theorem C7_amended_last_resolution_wins (s : MsgView) (cid : Nat) (res : List MessageRow)
    (_stale : s.active ≠ some cid) :
    (resolveFetchStep cid res s).messages = res ∧
    (resolveFetchStep cid res s).active = s.active ∧
    (setActiveStep none s).messages = [] ∧
    (setActiveStep none s).inflight = s.inflight ∧
    (setActiveStep (some cid) s).messages = s.messages :=
  ⟨rfl, rfl, rfl, rfl, rfl⟩

theorem C7_amended_witness :
    (resolveFetchStep 1 [convOneRow]
      { active := some 2, messages := [], inflight := [1] }).messages = [convOneRow] := by
  have h := C7_amended_last_resolution_wins
    { active := some 2, messages := [], inflight := [1] } 1 [convOneRow] (by decide)
  exact h.1

/-- Remote store holding one pending friend request from user 2 to user 1. -/
def reverseRequestDb : Remote :=
  { conversations := [], convParts := [], nextConvId := 0, messages := [],
    friendRequests := [⟨0, 2, 1, ReqStatus.pending⟩], nextReqId := 1,
    friendships := [], inviteCodes := [], typing := [] }

/-- Claim C3 is false on the code: with a pending request from user 2 to
user 1 already present, user 1 sending a request to user 2 succeeds and
creates a second pending row, because the unique constraint covers only
the ordered pair and no code checks the reverse direction. -/
theorem C3_counterexample :
    insertFriendRequestRow 1 2 reverseRequestDb
      = Except.ok { reverseRequestDb with
          friendRequests := [⟨0, 2, 1, ReqStatus.pending⟩, ⟨1, 1, 2, ReqStatus.pending⟩],
          nextReqId := 2 } ∧
    List.countP (fun q => q.status == ReqStatus.pending)
      [(⟨0, 2, 1, ReqStatus.pending⟩ : FriendRequestRow), ⟨1, 1, 2, ReqStatus.pending⟩] = 2 := by
  constructor
  · rfl
  · rfl

/-- Claim C3 amended: the insert fails only when a request with the same
ordered pair already exists in any status, or when the target equals the
caller; a pending reverse-direction request does not block, and a second
opposite-direction pending request is then created. The per-ordered-pair
unique constraint still keeps at most one row, hence at most one pending
request, per ordered pair. -/
theorem C3_amended_duplicate_same_direction_only (uid target : Nat) (r : Remote) :
    (uid = target → insertFriendRequestRow uid target r = Except.error DbErr.rowSecurity) ∧
    ((∃ q ∈ r.friendRequests, q.sender_id = uid ∧ q.receiver_id = target) → uid ≠ target →
      insertFriendRequestRow uid target r = Except.error DbErr.uniqueViolation) ∧
    (uid ≠ target → (∀ q ∈ r.friendRequests, ¬(q.sender_id = uid ∧ q.receiver_id = target)) →
      insertFriendRequestRow uid target r = Except.ok { r with
        friendRequests := r.friendRequests ++ [⟨r.nextReqId, uid, target, ReqStatus.pending⟩],
        nextReqId := r.nextReqId + 1 }) ∧
    (∀ s2 t2 : Nat,
      List.countP (fun q => q.sender_id == s2 && q.receiver_id == t2) r.friendRequests ≤ 1 →
      ∀ r1, insertFriendRequestRow uid target r = Except.ok r1 →
        List.countP (fun q => q.sender_id == s2 && q.receiver_id == t2
          && q.status == ReqStatus.pending) r1.friendRequests ≤ 1) := by
  refine ⟨?_, ?_, ?_, ?_⟩
  · intro h
    subst h
    simp [insertFriendRequestRow]
  · rintro ⟨q, hq, hs, ht⟩ hne
    unfold insertFriendRequestRow
    rw [if_neg (by simp [hne]), if_pos]
    exact List.any_eq_true.mpr ⟨q, hq, by simp [hs, ht]⟩
  · intro hne hnone
    have ha : (r.friendRequests.any fun q => q.sender_id == uid && q.receiver_id == target)
        = false := by
      rw [List.any_eq_false]
      intro q hq hqp
      rcases Bool.and_eq_true_iff.mp hqp with ⟨h1, h2⟩
      exact hnone q hq ⟨by simpa using h1, by simpa using h2⟩
    unfold insertFriendRequestRow
    rw [if_neg (by simp [hne]), if_neg (by simp [ha])]
  · intro s2 t2 hc r1 h1
    unfold insertFriendRequestRow at h1
    by_cases he : uid = target
    · simp [he] at h1
    · rw [if_neg (by simp [he])] at h1
      by_cases ha : r.friendRequests.any (fun q => q.sender_id == uid && q.receiver_id == target) = true
      · rw [if_pos ha] at h1
        cases h1
      · rw [if_neg ha] at h1
        cases h1
        rw [List.countP_append]
        have hmono : List.countP (fun q => q.sender_id == s2 && q.receiver_id == t2
            && q.status == ReqStatus.pending) r.friendRequests
            ≤ List.countP (fun q => q.sender_id == s2 && q.receiver_id == t2) r.friendRequests := by
          apply List.countP_mono_left
          intro q hq hqp
          rcases Bool.and_eq_true_iff.mp hqp with ⟨h3, _⟩
          exact h3
        by_cases hpair : s2 = uid ∧ t2 = target
        · have hzero : List.countP (fun q => q.sender_id == s2 && q.receiver_id == t2)
              r.friendRequests = 0 := by
            rw [List.countP_eq_zero]
            intro q hq hqp
            rcases Bool.and_eq_true_iff.mp hqp with ⟨h3, h4⟩
            apply ha
            exact List.any_eq_true.mpr ⟨q, hq, by
              rw [hpair.1] at h3
              rw [hpair.2] at h4
              simp [h3, h4]⟩
          have h5 : List.countP (fun q => q.sender_id == s2 && q.receiver_id == t2
              && q.status == ReqStatus.pending) r.friendRequests = 0 :=
            Nat.le_zero.mp (hzero ▸ hmono)
          have h6 : List.countP (fun q => q.sender_id == s2 && q.receiver_id == t2
              && q.status == ReqStatus.pending)
              [FriendRequestRow.mk r.nextReqId uid target ReqStatus.pending] ≤ 1 := by
            have hlen := List.countP_le_length
              (p := fun q => q.sender_id == s2 && q.receiver_id == t2
                && q.status == ReqStatus.pending)
              (l := [FriendRequestRow.mk r.nextReqId uid target ReqStatus.pending])
            simpa using hlen
          omega
        · have h6 : List.countP (fun q => q.sender_id == s2 && q.receiver_id == t2
              && q.status == ReqStatus.pending)
              [FriendRequestRow.mk r.nextReqId uid target ReqStatus.pending] = 0 := by
            rw [List.countP_eq_zero]
            intro q hq hqp
            rcases List.mem_singleton.mp hq with rfl
            rcases Bool.and_eq_true_iff.mp hqp with ⟨h3, _⟩
            rcases Bool.and_eq_true_iff.mp h3 with ⟨h4, h5⟩
            exact hpair ⟨(Nat.beq_eq_true_eq _ _ |>.mp h4).symm,
              (Nat.beq_eq_true_eq _ _ |>.mp h5).symm⟩
          omega

theorem C3_amended_witness :
    insertFriendRequestRow 1 1 reverseRequestDb = Except.error DbErr.rowSecurity ∧
    insertFriendRequestRow 2 1 reverseRequestDb = Except.error DbErr.uniqueViolation := by
  constructor
  · exact (C3_amended_duplicate_same_direction_only 1 1 reverseRequestDb).1 rfl
  · exact (C3_amended_duplicate_same_direction_only 2 1 reverseRequestDb).2.1
      ⟨⟨0, 2, 1, ReqStatus.pending⟩, by decide, rfl, rfl⟩ (by decide)

instance : IsTrans MessageRow (fun a b => a.created_at ≤ b.created_at) :=
  ⟨fun _ _ _ hab hbc => le_trans hab hbc⟩

/-- Claim C4 amended: any fetchMessages result lists exactly the rows of the
conversation, in an order non-decreasing by created_at; the relative order
of equal timestamps is not constrained by the query. -/
theorem C4_fetch_sorted_by_created_at (dbMsgs res : List MessageRow) (cid : Nat)
    (h : messagesQueryResult dbMsgs cid res) :
    res.Pairwise (fun a b => a.created_at ≤ b.created_at) ∧
    (∀ m : MessageRow, m ∈ res ↔ m ∈ dbMsgs ∧ m.conversation_id = cid) := by
  constructor
  · exact List.chain'_iff_pairwise.mp h.2
  · intro m
    rw [h.1.mem_iff, List.mem_filter]
    simp

/-- A message with the earlier timestamp used in fetch runs. -/
def rowEarly : MessageRow := ⟨1, 0, 9, "first", 1⟩

/-- A message with the later timestamp used in fetch runs. -/
def rowLate : MessageRow := ⟨2, 0, 9, "second", 2⟩

theorem C4_fetch_sorted_witness :
    ([rowEarly, rowLate].Pairwise (fun a b => a.created_at ≤ b.created_at)) ∧
    (∀ m : MessageRow, m ∈ [rowEarly, rowLate] ↔ m ∈ [rowEarly, rowLate]
      ∧ m.conversation_id = 0) := by
  exact C4_fetch_sorted_by_created_at [rowEarly, rowLate] [rowEarly, rowLate] 0
    ⟨List.Perm.refl _, by simp [sortedByCreatedAt, rowEarly, rowLate]⟩

/-- A tied-timestamp message with the higher id, listed first. -/
def tieRowHighId : MessageRow := ⟨2, 0, 9, "written first", 5⟩

/-- A tied-timestamp message with the lower id, listed second. -/
def tieRowLowId : MessageRow := ⟨1, 0, 9, "written second", 5⟩

/-- Claim C4 is false on the code: the query orders by created_at with no
secondary key, so a result placing two equal-timestamp messages with the
higher id first is a legitimate fetch result, and it is not ordered by
id. -/
theorem C4_counterexample :
    messagesQueryResult [tieRowHighId, tieRowLowId] 0 [tieRowHighId, tieRowLowId] ∧
    ¬ List.Chain' (fun a b => a.id ≤ b.id) [tieRowHighId, tieRowLowId] := by
  refine ⟨⟨List.Perm.refl _, ?_⟩, ?_⟩
  · simp [sortedByCreatedAt, tieRowHighId, tieRowLowId]
  · simp [tieRowHighId, tieRowLowId]

lemma handleInputChange_spec (t : Nat) (m : TypingMachine) (h : TimerWF m) :
    (handleInputChange t m).timers = [t + 1000] ∧
    (handleInputChange t m).timerRef = some (t + 1000) := by
  rcases h with h0 | ⟨d, hd, hr⟩
  · cases hrf : m.timerRef <;> cases hty : m.isTyping <;>
      simp [handleInputChange, hrf, hty, h0]
  · cases hty : m.isTyping <;>
      simp [handleInputChange, hr, hty, hd, List.erase]

/-- Claim C8: after a keystroke at time t the debounce holds exactly one live
timeout, due at t + 1000; a further keystroke cancels it and schedules one
fresh timeout instead of stacking a second; and when the timeout expires
its callback sends the stopTyping signal implicitly and resets the typing
flag, with no live timeout left. -/
theorem C8_typing_debounce (t t2 : Nat) (m : TypingMachine) (h : TimerWF m) :
    (handleInputChange t m).timers = [t + 1000] ∧
    (handleInputChange t2 (handleInputChange t m)).timers = [t2 + 1000] ∧
    (fireTimer (t + 1000) (handleInputChange t m)).isTyping = false ∧
    (fireTimer (t + 1000) (handleInputChange t m)).sent
      = (handleInputChange t m).sent ++ [false] ∧
    (fireTimer (t + 1000) (handleInputChange t m)).timers = [] := by
  obtain ⟨h1, h2⟩ := handleInputChange_spec t m h
  have hwf2 : TimerWF (handleInputChange t m) := Or.inr ⟨t + 1000, h1, h2⟩
  obtain ⟨h3, _⟩ := handleInputChange_spec t2 (handleInputChange t m) hwf2
  refine ⟨h1, h3, rfl, rfl, ?_⟩
  simp [fireTimer, h1, List.erase]

/-- The typing machine in its initial component state. -/
def initTypingMachine : TypingMachine :=
  { isTyping := false, timerRef := none, timers := [], sent := [] }

theorem C8_typing_debounce_witness :
    (handleInputChange 0 initTypingMachine).timers = [1000] ∧
    (fireTimer 1000 (handleInputChange 0 initTypingMachine)).sent
      = (handleInputChange 0 initTypingMachine).sent ++ [false] := by
  have h := C8_typing_debounce 0 5 initTypingMachine (Or.inl rfl)
  exact ⟨h.1, h.2.2.2.1⟩

/-- The remote store with every table empty. -/
def emptyRemote : Remote :=
  { conversations := [], convParts := [], nextConvId := 0, messages := [],
    friendRequests := [], nextReqId := 0, friendships := [], inviteCodes := [], typing := [] }

/-- Claim C5: sendMessage performs no insert when the trimmed content is
empty; on success it appends the trimmed message and bumps the updated_at
of the target conversation; on network failure it surfaces the retryable
failure outcome and changes nothing; and the local message store is
written in no branch. -/
theorem C5_sendMessage_no_optimistic_insert (uid cid newId now : Nat) (content : String)
    (netOk : Bool) (r : Remote) (s : ProviderState) :
    (trimString content = "" →
      sendMessageOp (some uid) cid content netOk now newId r s
        = (r, s, [], SendResult.skipped)) ∧
    (trimString content ≠ "" → netOk = true →
      (sendMessageOp (some uid) cid content netOk now newId r s).1.messages
          = r.messages ++ [MessageRow.mk newId cid uid (trimString content) now] ∧
      (∀ c ∈ (sendMessageOp (some uid) cid content netOk now newId r s).1.conversations,
        c.id = cid → c.updated_at = now) ∧
      (sendMessageOp (some uid) cid content netOk now newId r s).2.2.2 = SendResult.sent) ∧
    (trimString content ≠ "" → netOk = false →
      sendMessageOp (some uid) cid content netOk now newId r s
        = (r, s, [NetCall.insertMessageCall], SendResult.sendFailed)) ∧
    (sendMessageOp (some uid) cid content netOk now newId r s).2.1 = s := by
  refine ⟨?_, ?_, ?_, ?_⟩
  · intro h
    simp [sendMessageOp, h]
  · intro h hok
    subst hok
    refine ⟨by simp [sendMessageOp, h], ?_, by simp [sendMessageOp, h]⟩
    intro c hcmem hcid
    have hconvs : (sendMessageOp (some uid) cid content true now newId r s).1.conversations
        = r.conversations.map
          (fun c => if c.id == cid then { c with updated_at := now } else c) := by
      simp [sendMessageOp, h]
    rw [hconvs] at hcmem
    rcases List.mem_map.mp hcmem with ⟨c0, _, rfl⟩
    by_cases hc0 : (c0.id == cid) = true
    · simp [hc0]
    · rw [if_neg hc0] at hcid ⊢
      exact absurd (by simp [hcid]) hc0
  · intro h hfail
    subst hfail
    simp [sendMessageOp, h]
  · by_cases h : trimString content = "" <;> cases netOk <;> simp [sendMessageOp, h]

theorem C5_sendMessage_witness :
    sendMessageOp (some 1) 0 "   " true 7 5 emptyRemote initProviderState
      = (emptyRemote, initProviderState, [], SendResult.skipped) ∧
    sendMessageOp (some 1) 0 "hi" false 7 5 emptyRemote initProviderState
      = (emptyRemote, initProviderState, [NetCall.insertMessageCall], SendResult.sendFailed) := by
  constructor
  · exact (C5_sendMessage_no_optimistic_insert 1 0 5 7 "   " true emptyRemote
      initProviderState).1 (by decide)
  · exact (C5_sendMessage_no_optimistic_insert 1 0 5 7 "hi" false emptyRemote
      initProviderState).2.2.1 (by decide) rfl

lemma find?_of_nodup_key {α β : Type} [DecidableEq β] (f : α → β) (p : α → Bool)
    (l : List α) (a : α) (hn : (l.map f).Nodup) (ha : a ∈ l) (hp : p a = true)
    (hkey : ∀ b, p b = true → f b = f a) :
    l.find? p = some a := by
  induction l with
  | nil => cases ha
  | cons x t ih =>
    rw [List.map_cons, List.nodup_cons] at hn
    cases hpx : p x with
    | true =>
      have hfx : f x = f a := hkey x hpx
      rcases List.mem_cons.mp ha with rfl | hat
      · simp [List.find?_cons, hpx]
      · exact absurd (by rw [hfx]; exact List.mem_map_of_mem f hat) hn.1
    | false =>
      rcases List.mem_cons.mp ha with rfl | hat
      · rw [hp] at hpx
        cases hpx
      · simp only [List.find?_cons, hpx]
        exact ih hn.2 hat

/-- Claim C2: for a pending request addressed to the caller, accept succeeds,
marks the request accepted, leaves exactly one friendship row for the pair
with the lower id first, and fails with the not-found-or-unauthorized
error on a second accept, on an accept by anyone other than the receiver,
and on an absent request id, creating nothing in those cases since an
error leaves the store untouched. -/
theorem C2_accept_once_single_friendship (uid request_id : Nat) (r : Remote)
    (q : FriendRequestRow) (hmem : q ∈ r.friendRequests) (hid : q.id = request_id)
    (hrecv : q.receiver_id = uid) (hpend : q.status = ReqStatus.pending)
    (hne : q.sender_id ≠ q.receiver_id)
    (hnodup : (r.friendRequests.map (fun w => w.id)).Nodup)
    (hfcount : List.countP (fun f => f.user1_id == min q.sender_id q.receiver_id
      && f.user2_id == max q.sender_id q.receiver_id) r.friendships ≤ 1) :
    ∃ r1, accept_friend_request uid request_id r = Except.ok r1 ∧
      (∀ w ∈ r1.friendRequests, w.id = request_id → w.status = ReqStatus.accepted) ∧
      List.countP (fun f => f.user1_id == min q.sender_id q.receiver_id
        && f.user2_id == max q.sender_id q.receiver_id) r1.friendships = 1 ∧
      min q.sender_id q.receiver_id < max q.sender_id q.receiver_id ∧
      accept_friend_request uid request_id r1
        = Except.error "Friend request not found or not authorized" ∧
      (∀ uid2, uid2 ≠ uid → accept_friend_request uid2 request_id r
        = Except.error "Friend request not found or not authorized") ∧
      (∀ rid, (∀ w ∈ r.friendRequests, w.id ≠ rid) → accept_friend_request uid rid r
        = Except.error "Friend request not found or not authorized") := by
  have hfind : r.friendRequests.find?
      (fun w => w.id == request_id && w.receiver_id == uid && w.status == ReqStatus.pending)
      = some q := by
    apply find?_of_nodup_key (fun w => w.id) _ _ _ hnodup hmem
    · simp [hid, hrecv, hpend]
    · intro b hb
      simp only [Bool.and_eq_true, beq_iff_eq] at hb
      rw [hb.1.1, hid]
  have hstep : accept_friend_request uid request_id r = Except.ok
      { r with
        friendRequests := (r.friendRequests.map
          (fun w => if w.id == request_id then { w with status := ReqStatus.accepted } else w)),
        friendships := (if r.friendships.any
            (fun f => f.user1_id == min q.sender_id q.receiver_id
              && f.user2_id == max q.sender_id q.receiver_id)
          then r.friendships
          else r.friendships ++ [⟨min q.sender_id q.receiver_id,
            max q.sender_id q.receiver_id⟩]) } := by
    unfold accept_friend_request
    rw [hfind]
  refine ⟨_, hstep, ?_, ?_, min_lt_max.mpr hne, ?_, ?_, ?_⟩
  · intro w hw hwid
    rcases List.mem_map.mp hw with ⟨w0, _, rfl⟩
    by_cases h0 : w0.id = request_id
    · simp [h0]
    · rw [if_neg (by simp [h0])] at hwid ⊢
      exact absurd hwid h0
  · by_cases hany : (r.friendships.any
        (fun f => f.user1_id == min q.sender_id q.receiver_id
          && f.user2_id == max q.sender_id q.receiver_id)) = true
    · rw [if_pos hany]
      rcases List.any_eq_true.mp hany with ⟨f0, hf0, hpf⟩
      have hpos : 0 < List.countP (fun f => f.user1_id == min q.sender_id q.receiver_id
          && f.user2_id == max q.sender_id q.receiver_id) r.friendships :=
        List.countP_pos_iff.mpr ⟨f0, hf0, hpf⟩
      exact le_antisymm hfcount hpos
    · rw [if_neg hany]
      have hany2 : (r.friendships.any
          (fun f => f.user1_id == min q.sender_id q.receiver_id
            && f.user2_id == max q.sender_id q.receiver_id)) = false := by
        simpa using hany
      have hzero : List.countP (fun f => f.user1_id == min q.sender_id q.receiver_id
          && f.user2_id == max q.sender_id q.receiver_id) r.friendships = 0 := by
        rw [List.countP_eq_zero]
        intro f hf hpf
        rw [List.any_eq_false] at hany2
        exact hany2 f hf hpf
      rw [List.countP_append, hzero, List.countP_cons, List.countP_nil]
      simp
  · have hnone : (List.map
        (fun w => if w.id == request_id then { w with status := ReqStatus.accepted } else w)
        r.friendRequests).find?
        (fun w => w.id == request_id && w.receiver_id == uid && w.status == ReqStatus.pending)
        = none := by
      rw [List.find?_eq_none]
      intro w hw
      rcases List.mem_map.mp hw with ⟨w0, _, rfl⟩
      by_cases h0 : w0.id = request_id
      · simp [h0]
      · rw [if_neg (by simp [h0])]
        simp only [Bool.and_eq_true, beq_iff_eq]
        rintro ⟨⟨h1, _⟩, _⟩
        exact h0 h1
    unfold accept_friend_request
    rw [hnone]
  · intro uid2 hne2
    have hnone2 : r.friendRequests.find?
        (fun w => w.id == request_id && w.receiver_id == uid2 && w.status == ReqStatus.pending)
        = none := by
      rw [List.find?_eq_none]
      intro w hw
      simp only [Bool.and_eq_true, beq_iff_eq]
      rintro ⟨⟨h1, h2⟩, _⟩
      have hwq : w = q := List.inj_on_of_nodup_map hnodup hw hmem (by rw [h1, hid])
      rw [hwq, hrecv] at h2
      exact hne2 h2.symm
    unfold accept_friend_request
    rw [hnone2]
  · intro rid hrid
    have hnone3 : r.friendRequests.find?
        (fun w => w.id == rid && w.receiver_id == uid && w.status == ReqStatus.pending)
        = none := by
      rw [List.find?_eq_none]
      intro w hw
      simp only [Bool.and_eq_true, beq_iff_eq]
      rintro ⟨⟨h1, _⟩, _⟩
      exact hrid w hw h1
    unfold accept_friend_request
    rw [hnone3]

theorem C2_accept_witness :
    (∃ r1, accept_friend_request 1 0 reverseRequestDb = Except.ok r1 ∧
      List.countP (fun f => f.user1_id == min 2 1 && f.user2_id == max 2 1)
        r1.friendships = 1) ∧
    accept_friend_request 3 0 reverseRequestDb
      = Except.error "Friend request not found or not authorized" := by
  obtain ⟨r1, hok, hacc, hcount, hlt, hsecond, hother, habsent⟩ :=
    C2_accept_once_single_friendship 1 0 reverseRequestDb ⟨0, 2, 1, ReqStatus.pending⟩
      (by decide) rfl rfl rfl (by decide) (by decide) (by decide)
  exact ⟨⟨r1, hok, hcount⟩, hother 3 (by decide)⟩

lemma find?_congr {α : Type} (p q : α → Bool) (l : List α) (h : ∀ a, p a = q a) :
    l.find? p = l.find? q := by
  induction l with
  | nil => rfl
  | cons x t ih =>
    cases hqx : q x
    · simp [List.find?_cons, h x, hqx, ih]
    · simp [List.find?_cons, h x, hqx]

lemma isDirectPairConv_comm (r : Remote) (uid other : Nat) (c : Conversation) :
    isDirectPairConv r uid other c = isDirectPairConv r other uid c := by
  unfold isDirectPairConv
  cases h1 : r.convParts.any (fun p => p.conversation_id == c.id && p.user_id == uid) <;>
    cases h2 : r.convParts.any (fun p => p.conversation_id == c.id && p.user_id == other) <;>
      simp [h1, h2]

lemma findDirectConv_comm (uid other : Nat) (r : Remote) :
    findDirectConv uid other r = findDirectConv other uid r := by
  unfold findDirectConv
  rw [find?_congr _ _ _ (isDirectPairConv_comm r uid other)]

lemma convParts_any_fresh (r : Remote) (hwf : r.ConvWF) (u : Nat) :
    (r.convParts.any fun p => p.conversation_id == r.nextConvId && p.user_id == u) = false := by
  rw [List.any_eq_false]
  intro p hp hpp
  rcases Bool.and_eq_true_iff.mp hpp with ⟨h1, _⟩
  have hlt := hwf.2 p hp
  rw [beq_iff_eq] at h1
  omega

lemma convParts_countP_fresh (r : Remote) (hwf : r.ConvWF) :
    (r.convParts.countP fun p => p.conversation_id == r.nextConvId) = 0 := by
  rw [List.countP_eq_zero]
  intro p hp hpp
  have hlt := hwf.2 p hp
  rw [beq_iff_eq] at hpp
  omega

lemma isDirectPairConv_create_old (uid other a b : Nat) (r : Remote) (hwf : r.ConvWF)
    (c : Conversation) (hc : c ∈ r.conversations) :
    isDirectPairConv (createDirectConv uid other r).2 a b c = isDirectPairConv r a b c := by
  have hlt : c.id < r.nextConvId := hwf.1 c hc
  have hne : (r.nextConvId == c.id) = false := by
    simp only [beq_eq_false_iff_ne, ne_eq]
    omega
  unfold createDirectConv isDirectPairConv
  simp [List.any_append, List.countP_append, hne]

lemma isDirectPairConv_create_new (uid other : Nat) (r : Remote) (hwf : r.ConvWF) :
    isDirectPairConv (createDirectConv uid other r).2 uid other
      ⟨r.nextConvId, ConvType.direct, uid, 0⟩ = true := by
  unfold createDirectConv isDirectPairConv
  simp [List.any_append, List.countP_append, convParts_any_fresh r hwf uid,
    convParts_any_fresh r hwf other, convParts_countP_fresh r hwf]

lemma findDirectConv_after_create (uid other : Nat) (r : Remote) (hwf : r.ConvWF)
    (hnone : findDirectConv uid other r = none) :
    findDirectConv uid other (createDirectConv uid other r).2
      = some (createDirectConv uid other r).1 := by
  have hfind : r.conversations.find? (isDirectPairConv r uid other) = none := by
    unfold findDirectConv at hnone
    cases hfd : r.conversations.find? (isDirectPairConv r uid other) with
    | none => rfl
    | some c =>
      rw [hfd] at hnone
      cases hnone
  have hold : ∀ c ∈ r.conversations,
      isDirectPairConv (createDirectConv uid other r).2 uid other c = false := by
    intro c hc
    rw [isDirectPairConv_create_old uid other uid other r hwf c hc]
    have := List.find?_eq_none.mp hfind c hc
    simpa using this
  have hconvs : (createDirectConv uid other r).2.conversations
      = r.conversations ++ [⟨r.nextConvId, ConvType.direct, uid, 0⟩] := rfl
  unfold findDirectConv
  rw [hconvs, List.find?_append]
  have hl : r.conversations.find?
      (isDirectPairConv (createDirectConv uid other r).2 uid other) = none := by
    rw [List.find?_eq_none]
    intro c hc
    rw [hold c hc]
    simp
  rw [hl]
  have hnew := isDirectPairConv_create_new uid other r hwf
  simp [List.find?_cons, hnew]
  rfl

lemma countDirectPair_after_create (uid other : Nat) (r : Remote) (hwf : r.ConvWF)
    (hnone : findDirectConv uid other r = none) :
    countDirectPair uid other (createDirectConv uid other r).2 = 1 := by
  have hfind : r.conversations.find? (isDirectPairConv r uid other) = none := by
    unfold findDirectConv at hnone
    cases hfd : r.conversations.find? (isDirectPairConv r uid other) with
    | none => rfl
    | some c =>
      rw [hfd] at hnone
      cases hnone
  have hold : ∀ c ∈ r.conversations,
      isDirectPairConv (createDirectConv uid other r).2 uid other c = false := by
    intro c hc
    rw [isDirectPairConv_create_old uid other uid other r hwf c hc]
    have := List.find?_eq_none.mp hfind c hc
    simpa using this
  have hconvs : (createDirectConv uid other r).2.conversations
      = r.conversations ++ [⟨r.nextConvId, ConvType.direct, uid, 0⟩] := rfl
  unfold countDirectPair
  rw [hconvs, List.countP_append]
  have hzero : r.conversations.countP
      (isDirectPairConv (createDirectConv uid other r).2 uid other) = 0 := by
    rw [List.countP_eq_zero]
    intro c hc hcp
    rw [hold c hc] at hcp
    cases hcp
  have hnew := isDirectPairConv_create_new uid other r hwf
  rw [hzero, List.countP_cons, List.countP_nil, hnew]
  simp

/-- Claim C1 amended: sequential resolve calls are idempotent in either
argument order: once a call has returned an id, every later call for the
same pair returns the same id with the store unchanged, and exactly one
direct conversation for the pair exists. Interleaved calls are not safe:
two calls that both run their lookup before either creates each take the
creation path, no uniqueness violation occurs (no constraint covers the
pair and no re-query handler exists in the source), and two direct
conversations remain; see the counterexample run. -/
theorem C1_resolve_sequential_idempotent (uid other : Nat) (r : Remote)
    (hwf : r.ConvWF) (_hne : uid ≠ other)
    (hcount : countDirectPair uid other r ≤ 1) :
    get_or_create_conversation uid other (get_or_create_conversation uid other r).2
      = get_or_create_conversation uid other r ∧
    get_or_create_conversation other uid (get_or_create_conversation uid other r).2
      = get_or_create_conversation uid other r ∧
    countDirectPair uid other (get_or_create_conversation uid other r).2 = 1 := by
  cases hf : findDirectConv uid other r with
  | some cid =>
    have hres : get_or_create_conversation uid other r = (cid, r) := by
      unfold get_or_create_conversation
      rw [hf]
    rw [hres]
    refine ⟨?_, ?_, ?_⟩
    · unfold get_or_create_conversation
      rw [hf]
    · unfold get_or_create_conversation
      rw [findDirectConv_comm other uid r, hf]
    · unfold findDirectConv at hf
      cases hfd : r.conversations.find? (isDirectPairConv r uid other) with
      | none =>
        rw [hfd] at hf
        cases hf
      | some c =>
        have hpos : 0 < countDirectPair uid other r := by
          unfold countDirectPair
          exact List.countP_pos_iff.mpr
            ⟨c, List.mem_of_find?_eq_some hfd, List.find?_some hfd⟩
        exact le_antisymm hcount hpos
  | none =>
    have hres : get_or_create_conversation uid other r = createDirectConv uid other r := by
      unfold get_or_create_conversation
      rw [hf]
    rw [hres]
    have hafter := findDirectConv_after_create uid other r hwf hf
    refine ⟨?_, ?_, countDirectPair_after_create uid other r hwf hf⟩
    · unfold get_or_create_conversation
      rw [hafter]
    · unfold get_or_create_conversation
      rw [findDirectConv_comm other uid (createDirectConv uid other r).2, hafter]

theorem C1_resolve_witness :
    get_or_create_conversation 1 2 (get_or_create_conversation 1 2 emptyRemote).2
      = get_or_create_conversation 1 2 emptyRemote ∧
    get_or_create_conversation 2 1 (get_or_create_conversation 1 2 emptyRemote).2
      = get_or_create_conversation 1 2 emptyRemote ∧
    countDirectPair 1 2 (get_or_create_conversation 1 2 emptyRemote).2 = 1 := by
  exact C1_resolve_sequential_idempotent 1 2 emptyRemote
    ⟨by decide, by decide⟩ (by decide) (by decide)

/-- Claim C1 is false on the code for the concurrent calls the spec
addresses: two resolve calls that both run their lookup before either
creates each take the creation path; neither insert can raise a
uniqueness violation (no constraint covers the pair, the fresh ids are
distinct) and the source contains no re-query handler; the calls return
distinct conversation ids and two direct conversations for the pair
remain afterward. -/
theorem C1_counterexample :
    findDirectConv 1 2 emptyRemote = none ∧
    findDirectConv 2 1 emptyRemote = none ∧
    (createDirectConv 1 2 emptyRemote).1
      ≠ (createDirectConv 2 1 (createDirectConv 1 2 emptyRemote).2).1 ∧
    countDirectPair 1 2 (createDirectConv 2 1 (createDirectConv 1 2 emptyRemote).2).2 = 2 := by
  refine ⟨rfl, rfl, by decide, by decide⟩

end ChatCore

